import Mathlib

/-!
# reactlocation — `App.js`

A shallow embedding of the single screen of the application: the dark-mode
switch (React state, the theme effect, the `darkMode` key of AsyncStorage) and
the capture flow (`getLocation`, `saveLocation`, `loadLocations`) over the
`locations` table of `locations.db`.

Conventions of the embedding.

* React state (`isSwitchOn`, `isLoading`, `locations`, `theme`), the AsyncStorage
  key, the database, the queue of transactions handed to `db.transaction` and a
  log of observable events are the fields of one record, `World`; every function
  of `App.js` is a function on `World`.
* `db.transaction(cb)` does not run `cb` at once: it queues the transaction.
  The queue is served first-in first-out, one transaction at a time, by
  `flush`; results reach the component through the statement callbacks.
* `getLocation` is given twice: as one function (`getLocation`, the call run
  on its own from start to end) and cut at its awaits (`afterPermission`,
  `afterPosition`, `afterSave`, `afterLoad`), so that several calls and the
  queue can be interleaved by `Sys.step`; `getLocation_eq_segments` shows that
  the pieces run in a row are the single function.
* The outcomes of the platform calls (permission, position, storage faults) are
  explicit arguments.
* Latitude and longitude are only stored and returned, never computed with; a
  finite double is a rational number, so they are carried as `ℚ`.
-/

namespace ReactLocation

/-! ## Data model -/

/-- Colour tables imported by `App.js`: `myColors.colors` (assets/colors.json)
and `myColorsDark.colors` (assets/colorsDark.json), by reference. -/
inductive Palette where
  | myColors
  | myColorsDark
deriving DecidableEq, Repr

/-- Object `coords` built in `getLocation`: `{ latitude, longitude }`. -/
structure Coords where
  latitude : ℚ
  longitude : ℚ
deriving DecidableEq

/-- Row of `locations (id INTEGER PRIMARY KEY AUTOINCREMENT, latitude REAL,
longitude REAL)`. The identifier is carried as the exact integer the database
holds. -/
structure LocationRow where
  id : Nat
  latitude : ℚ
  longitude : ℚ
deriving DecidableEq

/-- Table `locations`: its rows in rowid order (the order of `SELECT *`), and
`seq`, the largest rowid ever handed out (the `sqlite_sequence` entry kept for
an AUTOINCREMENT column). -/
structure Table where
  rows : List LocationRow
  seq : Nat
deriving DecidableEq

/-- Contents of `locations.db`: `none` while the table `locations` does not exist. -/
abbrev Database := Option Table

/-- Transactions that `App.js` hands to `db.transaction`, each holding a single
`executeSql`: the CREATE of the startup effect, the INSERT of `saveLocation`
(both without callbacks) and the SELECT of `loadLocations` (success callback
`setLocations(_array)`, error callback logging and returning `false`). -/
inductive Txn where
  | createTable
  | insert (coords : Coords)
  | select
deriving DecidableEq

/-- Observable events, in the order they happen. -/
inductive Event where
  | permissionResolved (status : String)
  | permissionRejected
  | alert (title message : String)
  | positionRequested
  | positionResolved (coords : Coords)
  | positionRejected
  | saveLocationCalled (coords : Coords)
  | loadLocationsCalled
  | createExecuted (ok : Bool)
  | insertExecuted (coords : Coords) (ok : Bool)
  | selectExecuted (ok : Bool)
  | consoleError (message : String)
deriving DecidableEq

/-- State of the running application and of its two stores. -/
structure World where
  /-- `useState(false)`: dark mode. -/
  isSwitchOn : Bool
  /-- `useState(false)`: loading. -/
  isLoading : Bool
  /-- `useState([])`: the in-memory list of records. -/
  locations : List LocationRow
  /-- `theme.colors`; the other fields of `theme` are never changed. -/
  theme : Palette
  /-- AsyncStorage entry under the key `"darkMode"` (`none`: `getItem` gives `null`). -/
  darkMode : Option String
  /-- The database `locations.db`. -/
  db : Database
  /-- Transactions queued by `db.transaction` and not yet run, oldest first. -/
  pending : List Txn
  /-- Events so far, oldest first. -/
  log : List Event
deriving DecidableEq

/-- State of a session that has just started: the `useState` defaults, the two
stores as found on the device, nothing queued. -/
def initialWorld (darkMode : Option String) (db : Database) : World :=
  { isSwitchOn := false
    isLoading := false
    locations := []
    theme := Palette.myColors
    darkMode := darkMode
    db := db
    pending := []
    log := [] }

/-! ## SQL statements of `App.js` -/

/-- Largest rowid among the rows (0 for no rows). -/
def maxRowid (rows : List LocationRow) : Nat :=
  rows.foldl (fun m r => max m r.id) 0

/-- Rowid given to the next inserted row of an AUTOINCREMENT table: one more
than the largest rowid that ever existed in it, so the first one is 1. -/
def nextRowid (t : Table) : Nat :=
  max t.seq (maxRowid t.rows) + 1

/-- `CREATE TABLE IF NOT EXISTS locations (...)`. -/
def createTableIfNotExists (db : Database) : Database :=
  match db with
  | none => some { rows := [], seq := 0 }
  | some t => some t

/-- `INSERT INTO locations (latitude, longitude) VALUES (?, ?)`; `none` is the
statement error (no such table). Rowids are natural numbers here: the refusal
of an INSERT once the largest rowid, 9223372036854775807, has been handed out is
not part of this function; like any other refusal by the engine it is a
`fault` of the statement in `execTxn`. -/
def insertInto (db : Database) (latitude longitude : ℚ) : Option Database :=
  match db with
  | none => none
  | some t =>
    some (some { rows := t.rows ++ [{ id := nextRowid t, latitude := latitude, longitude := longitude }]
                 seq := nextRowid t })

/-- `SELECT * FROM locations`; `none` is the statement error (no such table). -/
def selectAll (db : Database) : Option (List LocationRow) :=
  match db with
  | none => none
  | some t => some t.rows

/-! ## The transaction queue -/

/-- Append an event to the log. -/
def World.emit (w : World) (e : Event) : World :=
  { w with log := w.log ++ [e] }

/-- Run one queued transaction. `fault` is a storage failure of the statement
(input/output error, disk full); a statement also fails when the table is
missing. A failed statement without an error callback aborts and rolls back
its transaction; the SELECT has an error callback, which logs. -/
def execTxn (fault : Bool) (t : Txn) (w : World) : World :=
  match t with
  | Txn.createTable =>
    if fault then w.emit (Event.createExecuted false)
    else { w with db := createTableIfNotExists w.db }.emit (Event.createExecuted true)
  | Txn.insert coords =>
    if fault then w.emit (Event.insertExecuted coords false)
    else
      match insertInto w.db coords.latitude coords.longitude with
      | none => w.emit (Event.insertExecuted coords false)
      | some db1 => { w with db := db1 }.emit (Event.insertExecuted coords true)
  | Txn.select =>
    if fault then
      (w.emit (Event.selectExecuted false)).emit (Event.consoleError "Erro ao carregar locations")
    else
      match selectAll w.db with
      | none =>
        (w.emit (Event.selectExecuted false)).emit (Event.consoleError "Erro ao carregar locations")
      | some _array => { w with locations := _array }.emit (Event.selectExecuted true)

/-- Run the transactions `txns` in order; the k-th one meets the k-th entry of
`faults` (no fault once the list is used up). -/
def flushAux : List Txn → List Bool → World → World
  | [], _, w => w
  | t :: ts, faults, w => flushAux ts faults.tail (execTxn (faults.headD false) t w)

/-- Serve the whole queue, oldest transaction first, leaving it empty. -/
def flush (faults : List Bool) (w : World) : World :=
  flushAux w.pending faults { w with pending := [] }

/-! ## Dark mode -/

/-- `JSON.stringify` of a boolean. -/
def jsonStringify (b : Bool) : String :=
  if b then "true" else "false"

/-- `JSON.parse` restricted to the two texts `onToggleSwitch` writes, `"true"`
and `"false"`. Every other text gives `none`, which `loadDarkMode` treats as a
parse error; this differs from `JSON.parse` on other valid JSON texts (`"1"`,
`" true"`), which the application itself never stores under the key. -/
def jsonParse (s : String) : Option Bool :=
  if s = "true" then some true
  else if s = "false" then some false
  else none

/-- Palette selected by the flag in the theme effect. -/
def paletteFor (isSwitchOn : Bool) : Palette :=
  if isSwitchOn then Palette.myColorsDark else Palette.myColors

/-- Effect with dependency `[isSwitchOn]`: `setTheme({ ...theme, colors: ... })`. -/
def themeEffect (w : World) : World :=
  if w.isSwitchOn then { w with theme := Palette.myColorsDark }
  else { w with theme := Palette.myColors }

/-- `loadDarkMode`: `getItemFails` is a storage error of `AsyncStorage.getItem`. -/
def loadDarkMode (getItemFails : Bool) (w : World) : World :=
  if getItemFails then w.emit (Event.consoleError "Erro ao carregar dark mode:")
  else
    match w.darkMode with
    | none => w
    | some value =>
      match jsonParse value with
      | some b => { w with isSwitchOn := b }
      | none => w.emit (Event.consoleError "Erro ao carregar dark mode:")

/-- `onToggleSwitch`: `setItemFails` is a storage error of `AsyncStorage.setItem`;
the in-memory value is set before the write and is not rolled back. -/
def onToggleSwitch (setItemFails : Bool) (w : World) : World :=
  let newValue := !w.isSwitchOn
  let w1 := { w with isSwitchOn := newValue }
  if setItemFails then w1.emit (Event.consoleError "Erro ao salvar dark mode:")
  else { w1 with darkMode := some (jsonStringify newValue) }

/-- States rendered after a press of the switch, in order. `setIsSwitchOn`
makes React render again with the new flag; the effect that depends on
`isSwitchOn` runs once that render is committed, and its `setTheme` causes the
next render. -/
def rendersAfterToggle (setItemFails : Bool) (w : World) : List World :=
  [onToggleSwitch setItemFails w, themeEffect (onToggleSwitch setItemFails w)]

/-- One press of the switch with a working store, followed by the theme effect. -/
def toggleOnce (w : World) : World :=
  themeEffect (onToggleSwitch false w)

/-- `n` presses of the switch, each followed by the theme effect. -/
def toggleTimes (n : Nat) (w : World) : World :=
  toggleOnce^[n] w

/-! ## Capture -/

/-- Platform outcomes of one `getLocation` call. -/
structure CaptureEnv where
  /-- `requestForegroundPermissionsAsync`: `none` when the call rejects, else `status`. -/
  permission : Option String
  /-- `getCurrentPositionAsync`: `none` when the call rejects, else `location.coords`. -/
  position : Option Coords
  /-- `db.transaction` throws inside `saveLocation`. -/
  saveThrows : Bool
  /-- `db.transaction` throws inside `loadLocations`. -/
  loadThrows : Bool

/-- `saveLocation(coords)`: queues the INSERT and returns; the flag tells
whether the call threw (the promise rejected). -/
def saveLocation (transactionThrows : Bool) (coords : Coords) (w : World) : World × Bool :=
  let w := w.emit (Event.saveLocationCalled coords)
  if transactionThrows then (w, true)
  else ({ w with pending := w.pending ++ [Txn.insert coords] }, false)

/-- `loadLocations()`: `setIsLoading(true)`, queue the SELECT,
`setIsLoading(false)`; the flag tells whether the call threw. -/
def loadLocations (transactionThrows : Bool) (w : World) : World × Bool :=
  let w := w.emit Event.loadLocationsCalled
  let w := { w with isLoading := true }
  if transactionThrows then (w, true)
  else
    let w := { w with pending := w.pending ++ [Txn.select] }
    ({ w with isLoading := false }, false)

/-- How the `try` block of `getLocation` ends. -/
inductive TryExit where
  | returned
  | completed
  | threw
deriving DecidableEq

/-- Body of the `try` block of `getLocation`. -/
def getLocationTry (env : CaptureEnv) (w : World) : World × TryExit :=
  match env.permission with
  | none => (w.emit Event.permissionRejected, TryExit.threw)
  | some status =>
    let w := w.emit (Event.permissionResolved status)
    if status ≠ "granted" then
      let w := w.emit (Event.alert "Permissão negada" "Permissão para localização foi negada.")
      ({ w with isLoading := false }, TryExit.returned)
    else
      let w := w.emit Event.positionRequested
      match env.position with
      | none => (w.emit Event.positionRejected, TryExit.threw)
      | some location =>
        let w := w.emit (Event.positionResolved location)
        let coords : Coords := { latitude := location.latitude, longitude := location.longitude }
        match saveLocation env.saveThrows coords w with
        | (w, true) => (w, TryExit.threw)
        | (w, false) =>
          match loadLocations env.loadThrows w with
          | (w, true) => (w, TryExit.threw)
          | (w, false) => (w, TryExit.completed)

/-- `getLocation()`. -/
def getLocation (env : CaptureEnv) (w : World) : World :=
  let w := { w with isLoading := true }
  match getLocationTry env w with
  | (w, TryExit.returned) => w
  | (w, TryExit.threw) =>
    let w := w.emit (Event.consoleError "Erro ao obter localização:")
    { w with isLoading := false }
  | (w, TryExit.completed) => { w with isLoading := false }

/-- Startup effect (`useEffect(..., [])`) up to its return: queue the CREATE,
call `loadDarkMode()`, call `loadLocations()`. The call of `loadDarkMode` stops
at its first statement, `await AsyncStorage.getItem(...)`, and changes nothing
yet; its body runs once the store has answered (see `mount`). -/
def startupEffect (w : World) : World :=
  let w := { w with pending := w.pending ++ [Txn.createTable] }
  (loadLocations false w).1

/-- Mounting the component: the startup effect and the theme effect of the
first render, then the body of `loadDarkMode` when `getItem` has answered and
the theme effect of the render it causes (the effect is run again also when
the flag did not change, which leaves the theme as it is). -/
def mount (getItemFails : Bool) (w : World) : World :=
  themeEffect (loadDarkMode getItemFails (themeEffect (startupEffect w)))

/-- One capture followed by serving the queue: the k-th queued transaction
meets the k-th entry of `faults`. -/
def capture (env : CaptureEnv) (faults : List Bool) (w : World) : World :=
  flush faults (getLocation env w)

/-- Outcomes of a capture in which permission is granted, the provider returns
`c` and `db.transaction` does not throw. -/
def grantedEnv (c : Coords) : CaptureEnv :=
  { permission := some "granted", position := some c, saveThrows := false, loadThrows := false }

/-- Session started on a device without stored data, queue served. -/
def freshSession : World :=
  flush [] (mount false (initialWorld none none))

/-- Events added to the log by one capture and by serving the queue after it. -/
def captureEvents (env : CaptureEnv) (faults : List Bool) (w : World) : List Event :=
  (capture env faults w).log.drop w.log.length

/-- Position of an event among the four steps of a capture: permission
resolved, position requested, position resolved, INSERT run, SELECT run. -/
def stage : Event → Option Nat
  | Event.permissionResolved _ => some 0
  | Event.positionRequested => some 1
  | Event.positionResolved _ => some 2
  | Event.insertExecuted _ _ => some 3
  | Event.selectExecuted _ => some 4
  | _ => none

/-- Rows expected after inserting `cs` one by one when the next rowid is `k`. -/
def rowsFrom : Nat → List Coords → List LocationRow
  | _, [] => []
  | k, c :: cs => { id := k, latitude := c.latitude, longitude := c.longitude } :: rowsFrom (k + 1) cs

/-- `saveLocation` called for each coordinate in turn. -/
def saveAll (cs : List Coords) (w : World) : World :=
  cs.foldl (fun w c => (saveLocation false c w).1) w

/-! ## Interleaved calls -/

/-- Point at which a call of `getLocation` is suspended. -/
inductive Pc where
  /-- At `await Location.requestForegroundPermissionsAsync()`. -/
  | awaitPermission
  /-- At `await Location.getCurrentPositionAsync({})`. -/
  | awaitPosition
  /-- At `await saveLocation(coords)`; `rejected`: the call threw. -/
  | awaitSave (rejected : Bool)
  /-- At `await loadLocations()`; `rejected`: the call threw. -/
  | awaitLoad (rejected : Bool)
  /-- Returned. -/
  | done
deriving DecidableEq

/-- `getLocation` up to its first await: `setIsLoading(true)`. -/
def getLocationStart (w : World) : World :=
  { w with isLoading := true }

/-- The `catch` block of `getLocation` and the `setIsLoading(false)` after it. -/
def getLocationCatch (w : World) : World :=
  let w := w.emit (Event.consoleError "Erro ao obter localização:")
  { w with isLoading := false }

/-- `getLocation` from the answer of the permission request to its next await
or return. -/
def afterPermission (permission : Option String) (w : World) : World × Pc :=
  match permission with
  | none => (getLocationCatch (w.emit Event.permissionRejected), Pc.done)
  | some status =>
    let w := w.emit (Event.permissionResolved status)
    if status ≠ "granted" then
      let w := w.emit (Event.alert "Permissão negada" "Permissão para localização foi negada.")
      ({ w with isLoading := false }, Pc.done)
    else (w.emit Event.positionRequested, Pc.awaitPosition)

/-- `getLocation` from the answer of the position request to its next await or
return: build `coords`, call `saveLocation(coords)`. -/
def afterPosition (position : Option Coords) (saveThrows : Bool) (w : World) : World × Pc :=
  match position with
  | none => (getLocationCatch (w.emit Event.positionRejected), Pc.done)
  | some location =>
    let w := w.emit (Event.positionResolved location)
    let coords : Coords := { latitude := location.latitude, longitude := location.longitude }
    match saveLocation saveThrows coords w with
    | (w, rejected) => (w, Pc.awaitSave rejected)

/-- `getLocation` from the end of `await saveLocation(coords)` to its next await
or return: call `loadLocations()`. -/
def afterSave (rejected : Bool) (loadThrows : Bool) (w : World) : World × Pc :=
  if rejected then (getLocationCatch w, Pc.done)
  else
    match loadLocations loadThrows w with
    | (w, rejected) => (w, Pc.awaitLoad rejected)

/-- `getLocation` from the end of `await loadLocations()` to its return. -/
def afterLoad (rejected : Bool) (w : World) : World :=
  if rejected then getLocationCatch w else { w with isLoading := false }

/-- The application with any number of `getLocation` calls under way. -/
structure Sys where
  /-- State and stores; `world.pending` is empty between steps, the queue is `queue`. -/
  world : World
  /-- Calls of `getLocation` made so far, in order, each with the point it has reached. -/
  calls : List Pc
  /-- Transactions queued and not yet run, oldest first, each with the call
  that queued it (`none`: the startup effect). -/
  queue : List (Option Nat × Txn)
  /-- Events so far, oldest first, each with the call it belongs to; the
  events of a transaction belong to the call that queued it. -/
  trace : List (Option Nat × Event)

/-- Steps of the interleaved system: the button is pressed, a platform
request of a call is answered, a call resumes after `await saveLocation` or
`await loadLocations`, the database runs its oldest queued transaction. -/
inductive Action where
  | press
  | permission (call : Nat) (outcome : Option String)
  | position (call : Nat) (outcome : Option Coords) (saveThrows : Bool)
  | resume (call : Nat) (loadThrows : Bool)
  | transaction (fault : Bool)

/-- Take over the result `w` of a piece of code run on `s.world` for `owner`:
the transactions it queued go to the queue and the events it logged go to the
trace, both marked with `owner`. -/
def Sys.record (owner : Option Nat) (s : Sys) (w : World) : Sys :=
  { s with
    world := { w with pending := [] }
    queue := s.queue ++ w.pending.map (fun t => (owner, t))
    trace := s.trace ++ (w.log.drop s.world.log.length).map (fun e => (owner, e)) }

/-- One step of the interleaved system; an action that does not fit the point
a call has reached changes nothing. -/
def Sys.step (s : Sys) : Action → Sys
  | Action.press =>
    { Sys.record (some s.calls.length) s (getLocationStart s.world) with
      calls := s.calls ++ [Pc.awaitPermission] }
  | Action.permission k outcome =>
    match s.calls[k]? with
    | some Pc.awaitPermission =>
      { Sys.record (some k) s (afterPermission outcome s.world).1 with
        calls := s.calls.set k (afterPermission outcome s.world).2 }
    | _ => s
  | Action.position k outcome saveThrows =>
    match s.calls[k]? with
    | some Pc.awaitPosition =>
      { Sys.record (some k) s (afterPosition outcome saveThrows s.world).1 with
        calls := s.calls.set k (afterPosition outcome saveThrows s.world).2 }
    | _ => s
  | Action.resume k loadThrows =>
    match s.calls[k]? with
    | some (Pc.awaitSave rejected) =>
      { Sys.record (some k) s (afterSave rejected loadThrows s.world).1 with
        calls := s.calls.set k (afterSave rejected loadThrows s.world).2 }
    | some (Pc.awaitLoad rejected) =>
      { Sys.record (some k) s (afterLoad rejected s.world) with
        calls := s.calls.set k Pc.done }
    | _ => s
  | Action.transaction fault =>
    match s.queue with
    | [] => s
    | (owner, t) :: rest => Sys.record owner { s with queue := rest } (execTxn fault t s.world)

/-- Run a schedule: the steps in order. -/
def Sys.run (s : Sys) (acts : List Action) : Sys :=
  acts.foldl Sys.step s

/-- The application after mounting: no call made yet, the two transactions of
the startup effect queued. -/
def boot (getItemFails : Bool) (darkMode : Option String) (db : Database) : Sys :=
  Sys.record none { world := initialWorld darkMode db, calls := [], queue := [], trace := [] }
    (mount getItemFails (initialWorld darkMode db))

/-- Steps of call `k` that have taken place, in the order they did. -/
def callStages (s : Sys) (k : Nat) : List Nat :=
  (s.trace.filter (fun e => e.1 == some k)).filterMap (fun e => stage e.2)

/-- Step that running a queued transaction is: the INSERT or the SELECT. -/
def txnStage : Txn → Option Nat
  | Txn.insert _ => some 3
  | Txn.select => some 4
  | Txn.createTable => none

/-- Steps of call `k` that are queued and still to run, in queue order. -/
def queuedStages (s : Sys) (k : Nat) : List Nat :=
  (s.queue.filter (fun e => e.1 == some k)).filterMap (fun e => txnStage e.2)

/-- First step a call suspended at the given point can still add (5: none);
a call not yet made has added nothing. -/
def stageBound : Option Pc → Nat
  | none => 0
  | some Pc.awaitPermission => 0
  | some Pc.awaitPosition => 2
  | some (Pc.awaitSave _) => 4
  | some (Pc.awaitLoad _) => 5
  | some Pc.done => 5

/-- What a piece of `getLocation` run from the point `pc` on the state `w`, giving
`w1` and the point `pc1`, adds for its call: the steps it logs followed by the
steps it queues are in increasing order and lie between what `pc` and what
`pc1` leave open, and it logs a step only while the call has nothing queued. -/
def segmentFits (w : World) (pc : Pc) (w1 : World) (pc1 : Pc) : Prop :=
  ((w1.log.drop w.log.length).filterMap stage ++ w1.pending.filterMap txnStage).Pairwise
      (fun a b => a < b) ∧
  (∀ x ∈ (w1.log.drop w.log.length).filterMap stage ++ w1.pending.filterMap txnStage,
      stageBound (some pc) ≤ x ∧ x < stageBound (some pc1)) ∧
  ((w1.log.drop w.log.length).filterMap stage ≠ [] → stageBound (some pc) ≤ 3) ∧
  stageBound (some pc) ≤ stageBound (some pc1)

/-- Invariant of the interleaved system: for every call, the steps taken
followed by the steps queued are in increasing order and lie below what the
call can still add. -/
def Sys.Ordered (s : Sys) : Prop :=
  s.world.pending = [] ∧
  ∀ k, (callStages s k ++ queuedStages s k).Pairwise (fun a b => a < b) ∧
    ∀ x ∈ callStages s k ++ queuedStages s k, x < stageBound s.calls[k]?

/-! ## Lemmas on the queue -/

theorem execTxn_isLoading (f : Bool) (t : Txn) (w : World) :
    (execTxn f t w).isLoading = w.isLoading := by
  cases t <;> simp only [execTxn, World.emit] <;> split_ifs <;> try rfl
  all_goals split <;> rfl

theorem flushAux_isLoading (ts : List Txn) (fs : List Bool) (w : World) :
    (flushAux ts fs w).isLoading = w.isLoading := by
  induction ts generalizing fs w with
  | nil => rfl
  | cons t ts ih => simp only [flushAux, ih, execTxn_isLoading]

theorem getLocation_isLoading (env : CaptureEnv) (w : World) :
    (getLocation env w).isLoading = false := by
  obtain ⟨p, q, s, l⟩ := env
  cases p <;> cases q <;> cases s <;> cases l <;>
    simp [getLocation, getLocationTry, saveLocation, loadLocations, World.emit] <;>
    split_ifs <;> rfl

/-- What a transaction does to the database and to the list depends only on
the database and the list. -/
theorem execTxn_congr (f : Bool) (t : Txn) (w1 w2 : World)
    (hdb : w1.db = w2.db) (hl : w1.locations = w2.locations) :
    (execTxn f t w1).db = (execTxn f t w2).db ∧
      (execTxn f t w1).locations = (execTxn f t w2).locations := by
  cases t with
  | createTable => cases f <;> simp [execTxn, World.emit, hdb, hl]
  | insert c =>
    cases f
    · cases h : insertInto w2.db c.latitude c.longitude <;> simp [execTxn, World.emit, hdb, hl, h]
    · simp [execTxn, World.emit, hdb, hl]
  | select =>
    cases f
    · cases h : selectAll w2.db <;> simp [execTxn, World.emit, hdb, hl, h]
    · simp [execTxn, World.emit, hdb, hl]

theorem flushAux_congr (ts : List Txn) (fs : List Bool) (w1 w2 : World)
    (hdb : w1.db = w2.db) (hl : w1.locations = w2.locations) :
    (flushAux ts fs w1).db = (flushAux ts fs w2).db ∧
      (flushAux ts fs w1).locations = (flushAux ts fs w2).locations := by
  induction ts generalizing fs w1 w2 with
  | nil => exact ⟨hdb, hl⟩
  | cons t ts ih =>
    have h := execTxn_congr (fs.headD false) t w1 w2 hdb hl
    exact ih fs.tail _ _ h.1 h.2

theorem flushAux_append (a b : List Txn) (w : World) :
    flushAux (a ++ b) [] w = flushAux b [] (flushAux a [] w) := by
  induction a generalizing w with
  | nil => rfl
  | cons t ts ih => exact ih _

theorem maxRowid_append (rows : List LocationRow) (r : LocationRow) :
    maxRowid (rows ++ [r]) = max (maxRowid rows) r.id := by
  simp [maxRowid, List.foldl_append]

theorem flushAux_inserts (cs : List Coords) (w : World) (t : Table)
    (hdb : w.db = some t) (hmax : maxRowid t.rows ≤ t.seq) :
    (flushAux (cs.map Txn.insert) [] w).db
        = some { rows := t.rows ++ rowsFrom (t.seq + 1) cs, seq := t.seq + cs.length } ∧
      (flushAux (cs.map Txn.insert) [] w).locations = w.locations := by
  induction cs generalizing w t with
  | nil => simp [flushAux, rowsFrom, hdb]
  | cons c cs ih =>
    have hnext : nextRowid t = t.seq + 1 := by simp [nextRowid, hmax]
    have hstep : (execTxn false (Txn.insert c) w).db
        = some { rows := t.rows ++ [{ id := t.seq + 1, latitude := c.latitude, longitude := c.longitude }]
                 seq := t.seq + 1 } := by
      simp [execTxn, insertInto, hdb, hnext, World.emit]
    have hloc : (execTxn false (Txn.insert c) w).locations = w.locations := by
      simp [execTxn, insertInto, hdb, World.emit]
    have hmax1 : maxRowid (t.rows ++ [{ id := t.seq + 1, latitude := c.latitude, longitude := c.longitude }])
        ≤ t.seq + 1 := by
      rw [maxRowid_append]; simp; omega
    have h := ih (execTxn false (Txn.insert c) w) _ hstep hmax1
    simp only [List.map_cons, flushAux, List.tail_nil, List.headD_nil]
    refine ⟨?_, by rw [h.2, hloc]⟩
    rw [h.1]
    simp [rowsFrom, Nat.add_assoc, Nat.add_comm 1]

theorem saveAll_pending (cs : List Coords) (w : World) :
    (saveAll cs w).pending = w.pending ++ cs.map Txn.insert := by
  induction cs generalizing w with
  | nil => simp [saveAll]
  | cons c cs ih =>
    have := ih (saveLocation false c w).1
    simp only [saveAll, List.foldl_cons] at this ⊢
    rw [this]; simp [saveLocation, World.emit]

theorem saveAll_db (cs : List Coords) (w : World) :
    (saveAll cs w).db = w.db ∧ (saveAll cs w).locations = w.locations := by
  induction cs generalizing w with
  | nil => simp [saveAll]
  | cons c cs ih =>
    have := ih (saveLocation false c w).1
    simp only [saveAll, List.foldl_cons] at this ⊢
    rw [this.1, this.2]; simp [saveLocation, World.emit]

theorem rowsFrom_ids (k : Nat) (cs : List Coords) :
    (rowsFrom k cs).map (fun r => r.id) = List.range' k cs.length := by
  induction cs generalizing k with
  | nil => rfl
  | cons c cs ih => simp [rowsFrom, ih, List.range'_succ]

theorem rowsFrom_coords (k : Nat) (cs : List Coords) :
    (rowsFrom k cs).map (fun r => ({ latitude := r.latitude, longitude := r.longitude } : Coords)) = cs := by
  induction cs generalizing k with
  | nil => rfl
  | cons c cs ih => simp [rowsFrom, ih]

theorem load_after_saveAll (w : World) (cs : List Coords)
    (hdb : w.db = createTableIfNotExists none) (hq : w.pending = []) :
    (flush [] (loadLocations false (saveAll cs w)).1).locations = rowsFrom 1 cs ∧
    (flush [] (loadLocations false (saveAll cs w)).1).db = some { rows := rowsFrom 1 cs, seq := cs.length } := by
  have hp := saveAll_pending cs w
  have hd := saveAll_db cs w
  rw [hq, List.nil_append] at hp
  simp only [flush, loadLocations, World.emit, hp, Bool.false_eq_true, if_false]
  have h := flushAux_inserts cs
    { isSwitchOn := (saveAll cs w).isSwitchOn, isLoading := false, locations := (saveAll cs w).locations,
      theme := (saveAll cs w).theme, darkMode := (saveAll cs w).darkMode, db := (saveAll cs w).db,
      pending := [], log := (saveAll cs w).log ++ [Event.loadLocationsCalled] }
    { rows := [], seq := 0 } (by simp [hd.1, hdb, createTableIfNotExists]) (by simp [maxRowid])
  simp only [List.nil_append, Nat.zero_add] at h
  rw [flushAux_append]
  simp [flushAux, execTxn, selectAll, h.1, World.emit]


/-! ## Claims -/

/-- C1: coordinates saved one after the other with `saveLocation` into a freshly
created, empty table, then `loadLocations`: once the queue is served the
in-memory list has one record per coordinate, in insertion order, the
identifiers are 1, 2, ..., n and the i-th record carries the i-th latitude and
longitude; the table holds the same rows. -/
theorem C1_load_after_appends (w : World) (cs : List Coords)
    (hdb : w.db = createTableIfNotExists none) (hq : w.pending = []) :
    (flush [] (loadLocations false (saveAll cs w)).1).locations.length = cs.length ∧
    (flush [] (loadLocations false (saveAll cs w)).1).locations.map (fun r => r.id)
      = List.range' 1 cs.length ∧
    (flush [] (loadLocations false (saveAll cs w)).1).locations.map
        (fun r => ({ latitude := r.latitude, longitude := r.longitude } : Coords)) = cs ∧
    ((flush [] (loadLocations false (saveAll cs w)).1).locations.map (fun r => r.id)).Pairwise
        (fun a b => a < b) ∧
    selectAll (flush [] (loadLocations false (saveAll cs w)).1).db
      = some (flush [] (loadLocations false (saveAll cs w)).1).locations := by
  obtain ⟨hl, hd⟩ := load_after_saveAll w cs hdb hq
  rw [hl, hd]
  refine ⟨?_, rowsFrom_ids 1 cs, rowsFrom_coords 1 cs, ?_, rfl⟩
  · simpa using congrArg List.length (rowsFrom_ids 1 cs)
  · rw [rowsFrom_ids]
    exact List.pairwise_lt_range' 1 cs.length

theorem C1_load_after_appends_witness :
    (initialWorld none (some { rows := [], seq := 0 })).db = createTableIfNotExists none ∧
    (initialWorld none (some { rows := [], seq := 0 })).pending = [] ∧
    (flush [] (loadLocations false
        (saveAll [⟨10.5, -20.25⟩, ⟨3, 4⟩] (initialWorld none (some { rows := [], seq := 0 })))).1).locations.map
        (fun r => r.id) = List.range' 1 2 :=
  ⟨rfl, rfl, (C1_load_after_appends (initialWorld none (some { rows := [], seq := 0 }))
    [⟨10.5, -20.25⟩, ⟨3, 4⟩] rfl rfl).2.1⟩

/-- C2 (as stated, refuted): two states in which the in-memory list equals the
stored table. In the first an earlier capture has returned while its INSERT
and SELECT are still queued: the next capture, with status "granted" and the
position (10.5, -20.25), leaves the list two elements longer. In the second
nothing is queued but the INSERT meets a storage fault: no record is appended
and the list keeps its length. -/
theorem C2_list_longer_by_two_or_by_none :
    selectAll (getLocation (grantedEnv ⟨1, 2⟩) freshSession).db
      = some (getLocation (grantedEnv ⟨1, 2⟩) freshSession).locations ∧
    (capture (grantedEnv ⟨10.5, -20.25⟩) [] (getLocation (grantedEnv ⟨1, 2⟩) freshSession)).locations.length
      = (getLocation (grantedEnv ⟨1, 2⟩) freshSession).locations.length + 2 ∧
    selectAll freshSession.db = some freshSession.locations ∧
    (capture (grantedEnv ⟨10.5, -20.25⟩) [true] freshSession).db = freshSession.db ∧
    (capture (grantedEnv ⟨10.5, -20.25⟩) [true] freshSession).locations.length
      = freshSession.locations.length :=
  ⟨rfl, rfl, rfl, rfl, rfl⟩

/-- C2 (amended): in a state whose in-memory list equals the stored table and
with no transaction in flight, a `getLocation` with status "granted" and a
position from the provider whose INSERT and whose SELECT both succeed appends
exactly one row, carrying that latitude and longitude, and the in-memory list
afterwards is the old list followed by that row, so one element longer. -/
theorem C2_capture_appends_one (w : World) (t : Table) (c : Coords) (faults : List Bool)
    (hdb : w.db = some t) (hmem : w.locations = t.rows) (hq : w.pending = [])
    (hins : Event.insertExecuted c true ∈ captureEvents (grantedEnv c) faults w)
    (hsel : Event.selectExecuted true ∈ captureEvents (grantedEnv c) faults w) :
    (capture (grantedEnv c) faults w).db
      = some { rows := t.rows ++ [{ id := nextRowid t, latitude := c.latitude, longitude := c.longitude }]
               seq := nextRowid t } ∧
    (capture (grantedEnv c) faults w).locations
      = w.locations ++ [{ id := nextRowid t, latitude := c.latitude, longitude := c.longitude }] ∧
    (capture (grantedEnv c) faults w).locations.length
      = w.locations.length + 1 := by
  rcases faults with _ | ⟨f1, _ | ⟨f2, fs⟩⟩ <;> (try cases f1) <;> (try cases f2) <;>
    simp [captureEvents, capture, grantedEnv, getLocation, getLocationTry, saveLocation,
      loadLocations, World.emit, flush, flushAux, hq, execTxn, hdb, hmem, insertInto,
      selectAll] at hins hsel ⊢

theorem C2_capture_appends_one_witness :
    freshSession.db = some { rows := [], seq := 0 } ∧
    freshSession.locations = [] ∧
    freshSession.pending = [] ∧
    captureEvents (grantedEnv ⟨10.5, -20.25⟩) [] freshSession
      = [Event.permissionResolved "granted", Event.positionRequested,
          Event.positionResolved ⟨10.5, -20.25⟩, Event.saveLocationCalled ⟨10.5, -20.25⟩,
          Event.loadLocationsCalled, Event.insertExecuted ⟨10.5, -20.25⟩ true,
          Event.selectExecuted true] ∧
    (capture (grantedEnv ⟨10.5, -20.25⟩) [] freshSession).locations
      = [{ id := 1, latitude := 10.5, longitude := -20.25 }] :=
  ⟨rfl, rfl, rfl, rfl, (C2_capture_appends_one freshSession
    { rows := [], seq := 0 } ⟨10.5, -20.25⟩ [] rfl rfl rfl
    (by
      show Event.insertExecuted ⟨10.5, -20.25⟩ true ∈ [Event.permissionResolved "granted",
        Event.positionRequested, Event.positionResolved ⟨10.5, -20.25⟩,
        Event.saveLocationCalled ⟨10.5, -20.25⟩, Event.loadLocationsCalled,
        Event.insertExecuted ⟨10.5, -20.25⟩ true, Event.selectExecuted true]
      simp)
    (by
      show Event.selectExecuted true ∈ [Event.permissionResolved "granted",
        Event.positionRequested, Event.positionResolved ⟨10.5, -20.25⟩,
        Event.saveLocationCalled ⟨10.5, -20.25⟩, Event.loadLocationsCalled,
        Event.insertExecuted ⟨10.5, -20.25⟩ true, Event.selectExecuted true]
      simp)).2.1⟩

/-- C3: when the permission status is anything other than "granted",
`getLocation` leaves the in-memory list, the database and the queue of
transactions as they were (neither `saveLocation` nor `loadLocations` is
called: the only events are the resolved permission and the alert), the
loading flag is false when it returns, and serving the queue afterwards gives
the table and list it would have given without the call. -/
theorem C3_permission_not_granted (w : World) (env : CaptureEnv) (status : String)
    (hp : env.permission = some status) (hs : status ≠ "granted") :
    (getLocation env w).locations = w.locations ∧
    (getLocation env w).db = w.db ∧
    (getLocation env w).pending = w.pending ∧
    (getLocation env w).isLoading = false ∧
    (getLocation env w).log = w.log ++ [Event.permissionResolved status,
      Event.alert "Permissão negada" "Permissão para localização foi negada."] ∧
    (∀ faults, (capture env faults w).db = (flush faults w).db ∧
      (capture env faults w).locations = (flush faults w).locations) := by
  have h : getLocation env w =
      { w with
        isLoading := false
        log := w.log ++ [Event.permissionResolved status,
          Event.alert "Permissão negada" "Permissão para localização foi negada."] } := by
    simp [getLocation, getLocationTry, hp, hs, World.emit]
  simp only [capture]
  rw [h]
  refine ⟨rfl, rfl, rfl, rfl, rfl, fun faults => ?_⟩
  exact flushAux_congr w.pending faults _ _ rfl rfl

theorem C3_permission_not_granted_witness :
    (⟨some "denied", some ⟨10.5, -20.25⟩, false, false⟩ : CaptureEnv).permission = some "denied" ∧
    "denied" ≠ "granted" ∧
    (getLocation ⟨some "denied", some ⟨10.5, -20.25⟩, false, false⟩
        (initialWorld none (some { rows := [], seq := 0 }))).pending = [] ∧
    (getLocation ⟨some "denied", some ⟨10.5, -20.25⟩, false, false⟩
        (initialWorld none (some { rows := [], seq := 0 }))).isLoading = false :=
  ⟨rfl, by decide,
    (C3_permission_not_granted (initialWorld none (some { rows := [], seq := 0 }))
      ⟨some "denied", some ⟨10.5, -20.25⟩, false, false⟩ "denied" rfl (by decide)).2.2.1,
    (C3_permission_not_granted (initialWorld none (some { rows := [], seq := 0 }))
      ⟨some "denied", some ⟨10.5, -20.25⟩, false, false⟩ "denied" rfl (by decide)).2.2.2.1⟩

/-- C5: on every exit path of `getLocation` (completed, permission not granted,
or an exception of the permission request, the position fetch, `saveLocation`
or `loadLocations`) the loading flag is false when it returns, and serving the
queued transactions afterwards does not set it again. -/
theorem C5_loading_flag_cleared (env : CaptureEnv) (w : World) :
    (getLocation env w).isLoading = false ∧
    ∀ faults, (capture env faults w).isLoading = false := by
  refine ⟨getLocation_isLoading env w, fun faults => ?_⟩
  simp only [capture, flush, flushAux_isLoading]
  exact getLocation_isLoading env w


theorem toggleTimes_succ (n : Nat) (w : World) :
    toggleTimes (n + 1) w = toggleOnce (toggleTimes n w) := by
  simp only [toggleTimes, Function.iterate_succ_apply']

theorem parity_succ (n : Nat) : ((n + 1) % 2 == 1) = !(n % 2 == 1) := by
  rcases Nat.mod_two_eq_zero_or_one n with h | h <;> simp [Nat.add_mod, h]

theorem jsonParse_jsonStringify (b : Bool) : jsonParse (jsonStringify b) = some b := by
  cases b <;> decide

theorem toggleTimes_state (n : Nat) (db : Database) :
    (toggleTimes n (initialWorld none db)).isSwitchOn = (n % 2 == 1) ∧
    (toggleTimes n (initialWorld none db)).theme = paletteFor (n % 2 == 1) ∧
    (toggleTimes n (initialWorld none db)).darkMode
      = (if n = 0 then none else some (jsonStringify (n % 2 == 1))) := by
  induction n with
  | zero => simp [toggleTimes, initialWorld, paletteFor]
  | succ n ih =>
    obtain ⟨h1, -, -⟩ := ih
    rw [toggleTimes_succ, parity_succ]
    cases hb : (n % 2 == 1) <;> rw [hb] at h1 <;>
      simp [toggleOnce, themeEffect, onToggleSwitch, h1, paletteFor]

/-- C4: from the default state (flag false, light palette, nothing stored),
after `n` presses of the switch, each followed by the theme effect: the
palette is the dark one exactly when `n` is odd, the flag equals the parity of
`n`, a new session reading the store with `loadDarkMode` gets that same flag,
and for `n > 0` the stored text is the JSON text of that flag (decoding to
true for odd `n`, to false for even `n`); for `n = 0` nothing is stored. -/
theorem C4_toggle_parity (n : Nat) (db : Database) :
    (toggleTimes n (initialWorld none db)).theme = paletteFor (n % 2 == 1) ∧
    (toggleTimes n (initialWorld none db)).isSwitchOn = (n % 2 == 1) ∧
    (loadDarkMode false (initialWorld (toggleTimes n (initialWorld none db)).darkMode db)).isSwitchOn
      = (n % 2 == 1) ∧
    (toggleTimes n (initialWorld none db)).darkMode
      = (if n = 0 then none else some (jsonStringify (n % 2 == 1))) ∧
    (toggleTimes n (initialWorld none db)).darkMode.bind jsonParse
      = (if n = 0 then none else some (n % 2 == 1)) := by
  obtain ⟨h1, h2, h3⟩ := toggleTimes_state n db
  refine ⟨h2, h1, ?_, h3, ?_⟩
  · rw [h3]
    by_cases hn : n = 0
    · subst hn; rfl
    · simp [hn, loadDarkMode, initialWorld, jsonParse_jsonStringify]
  · rw [h3]
    by_cases hn : n = 0
    · subst hn; rfl
    · simp [hn, jsonParse_jsonStringify]

/-- C8 (as stated, refuted): in the default state the palette agrees with the
flag; the first state rendered after `onToggleSwitch` has the flag already
true while the palette is still the light one. -/
theorem C8_render_with_old_palette :
    (initialWorld none none).theme = paletteFor (initialWorld none none).isSwitchOn ∧
    ∃ r ∈ rendersAfterToggle false (initialWorld none none),
      r.isSwitchOn = true ∧ r.theme = Palette.myColors ∧ r.theme ≠ paletteFor r.isSwitchOn := by
  refine ⟨rfl, onToggleSwitch false (initialWorld none none), ?_, rfl, rfl, by decide⟩
  simp [rendersAfterToggle]

/-- C8 (amended): a press of the switch is followed by two renders; the first
has the flipped flag with the palette of before, the second, after the theme
effect, has the flipped flag with the palette that belongs to it. -/
theorem C8_palette_follows_effect (setItemFails : Bool) (w : World) :
    (rendersAfterToggle setItemFails w).map (fun r => (r.isSwitchOn, r.theme))
      = [(!w.isSwitchOn, w.theme), (!w.isSwitchOn, paletteFor (!w.isSwitchOn))] := by
  cases setItemFails <;> cases h : w.isSwitchOn <;>
    simp [rendersAfterToggle, onToggleSwitch, themeEffect, paletteFor, World.emit, h]


theorem iterate_createTableIfNotExists (N : Nat) (hN : 1 ≤ N) (db : Database) :
    createTableIfNotExists^[N] db = createTableIfNotExists db := by
  induction N with
  | zero => omega
  | succ n ih =>
    rcases Nat.eq_zero_or_pos n with h0 | hpos
    · subst h0; rfl
    · rw [Function.iterate_succ_apply', ih hpos]
      cases db <;> rfl

theorem flushAux_replicate_create (N : Nat) (w : World) :
    (flushAux (List.replicate N Txn.createTable) [] w).db = createTableIfNotExists^[N] w.db ∧
    (flushAux (List.replicate N Txn.createTable) [] w).locations = w.locations := by
  induction N generalizing w with
  | zero => exact ⟨rfl, rfl⟩
  | succ n ih =>
    have h := ih (execTxn false Txn.createTable w)
    simp only [List.replicate_succ, flushAux, List.tail_nil, List.headD_nil, Function.iterate_succ_apply]
    rw [h.1, h.2]
    simp [execTxn, World.emit]

/-- C7: the CREATE TABLE IF NOT EXISTS step is idempotent. For every database
and every `N ≥ 1`, the statement run `N` times gives the database that one run
gives; on a database that already has the table, table and rows are
unchanged; the same holds for `N` queued CREATE transactions, which also leave
the in-memory list alone. -/
theorem C7_create_idempotent (N : Nat) (hN : 1 ≤ N) (db : Database) (w : World) :
    createTableIfNotExists^[N] db = createTableIfNotExists db ∧
    (∀ t : Table, createTableIfNotExists^[N] (some t) = some t) ∧
    (flushAux (List.replicate N Txn.createTable) [] w).db
      = (flushAux [Txn.createTable] [] w).db ∧
    (flushAux (List.replicate N Txn.createTable) [] w).locations = w.locations := by
  refine ⟨iterate_createTableIfNotExists N hN db,
    fun t => by rw [iterate_createTableIfNotExists N hN]; rfl, ?_,
    (flushAux_replicate_create N w).2⟩
  rw [(flushAux_replicate_create N w).1, iterate_createTableIfNotExists N hN]
  simp [flushAux, execTxn, World.emit]

theorem C7_create_idempotent_witness :
    1 ≤ 3 ∧
    createTableIfNotExists^[3] (some { rows := [⟨1, 10.5, -20.25⟩], seq := 1 })
      = createTableIfNotExists (some { rows := [⟨1, 10.5, -20.25⟩], seq := 1 }) ∧
    createTableIfNotExists^[3] none = createTableIfNotExists none :=
  ⟨by decide,
    (C7_create_idempotent 3 (by decide) (some { rows := [⟨1, 10.5, -20.25⟩], seq := 1 })
      (initialWorld none none)).1,
    (C7_create_idempotent 3 (by decide) none (initialWorld none none)).1⟩

theorem loadDarkMode_fields (g : Bool) (w : World) :
    (loadDarkMode g w).db = w.db ∧ (loadDarkMode g w).locations = w.locations ∧
      (loadDarkMode g w).pending = w.pending := by
  cases g
  · cases hd : w.darkMode with
    | none => simp [loadDarkMode, hd]
    | some value => cases hj : jsonParse value <;> simp [loadDarkMode, hd, hj, World.emit]
  · simp [loadDarkMode, World.emit]

theorem themeEffect_fields (w : World) :
    (themeEffect w).db = w.db ∧ (themeEffect w).locations = w.locations ∧
      (themeEffect w).pending = w.pending := by
  cases h : w.isSwitchOn <;> simp [themeEffect, h]

theorem mount_fields (g : Bool) (w : World) :
    (mount g w).db = w.db ∧ (mount g w).locations = w.locations ∧
      (mount g w).pending = w.pending ++ [Txn.createTable, Txn.select] := by
  obtain ⟨h1, h2, h3⟩ := themeEffect_fields (loadDarkMode g (themeEffect (startupEffect w)))
  obtain ⟨k1, k2, k3⟩ := loadDarkMode_fields g (themeEffect (startupEffect w))
  obtain ⟨t1, t2, t3⟩ := themeEffect_fields (startupEffect w)
  simp only [mount, h1, h2, h3, k1, k2, k3, t1, t2, t3]
  simp [startupEffect, loadLocations, World.emit]

theorem flushAux_append_faults (a b : List Txn) (fs : List Bool) (w : World) :
    flushAux (a ++ b) fs w = flushAux b (fs.drop a.length) (flushAux a fs w) := by
  induction a generalizing fs w with
  | nil => rfl
  | cons t ts ih =>
    have h := ih fs.tail (execTxn (fs.headD false) t w)
    cases fs with
    | nil => simpa [flushAux] using h
    | cons f fs1 => simpa [flushAux] using h

/-- Right after a SELECT whose success callback has run, the in-memory list is
the stored table. -/
theorem execTxn_select_success (f : Bool) (w : World)
    (hok : (execTxn f Txn.select w).log.getLast? = some (Event.selectExecuted true)) :
    selectAll (execTxn f Txn.select w).db = some (execTxn f Txn.select w).locations := by
  cases f
  · cases hdb : w.db with
    | none => simp [execTxn, selectAll, World.emit, hdb] at hok
    | some t => simp [execTxn, selectAll, World.emit, hdb]
  · simp [execTxn, World.emit] at hok

theorem flushAux_create_select (w : World) (t : Table) (hdb : w.db = some t) :
    (flushAux [Txn.createTable, Txn.select] [] w).locations = t.rows ∧
      (flushAux [Txn.createTable, Txn.select] [] w).db = some t := by
  simp [flushAux, execTxn, World.emit, hdb, createTableIfNotExists, selectAll]

/-- C10: whatever is queued before it and whatever faults the transactions
before it meet, a `loadLocations` whose SELECT succeeds (the last event, once
the queue is served, is that success) leaves the in-memory list equal to all
the rows stored at that moment, identifiers and values as stored; in
particular a new session started on a database holding the rows of earlier
captures shows all of them after the load of the startup effect, and the
table is untouched. -/
theorem C10_load_gives_all_rows (w : World) (faults : List Bool) (t : Table)
    (darkMode : Option String) (getItemFails : Bool)
    (hok : (flush faults (loadLocations false w).1).log.getLast?
      = some (Event.selectExecuted true)) :
    selectAll (flush faults (loadLocations false w).1).db
      = some (flush faults (loadLocations false w).1).locations ∧
    (flush [] (mount getItemFails (initialWorld darkMode (some t)))).locations = t.rows ∧
    (flush [] (mount getItemFails (initialWorld darkMode (some t)))).db = some t := by
  obtain ⟨m1, -, m3⟩ := mount_fields getItemFails (initialWorld darkMode (some t))
  have hm := flushAux_create_select
    { mount getItemFails (initialWorld darkMode (some t)) with pending := [] } t m1
  refine ⟨?_, ?_, ?_⟩
  · have hfl : flush faults (loadLocations false w).1
        = execTxn ((faults.drop w.pending.length).headD false) Txn.select
            (flushAux w.pending faults
              { w with isLoading := false, pending := [], log := w.log ++ [Event.loadLocationsCalled] }) := by
      simp [flush, loadLocations, World.emit, flushAux_append_faults, flushAux]
    rw [hfl] at hok ⊢
    exact execTxn_select_success _ _ hok
  · rw [flush, m3]; exact hm.1
  · rw [flush, m3]; exact hm.2

theorem C10_load_gives_all_rows_witness :
    (flush [] (loadLocations false
        (getLocation (grantedEnv ⟨10.5, -20.25⟩) freshSession)).1).log.getLast?
      = some (Event.selectExecuted true) ∧
    selectAll (flush [] (loadLocations false
        (getLocation (grantedEnv ⟨10.5, -20.25⟩) freshSession)).1).db
      = some [{ id := 1, latitude := 10.5, longitude := -20.25 }] ∧
    (flush [] (loadLocations false
        (getLocation (grantedEnv ⟨10.5, -20.25⟩) freshSession)).1).locations
      = [{ id := 1, latitude := 10.5, longitude := -20.25 }] ∧
    (flush [] (mount false (initialWorld (some "true")
        (some { rows := [⟨1, 10.5, -20.25⟩, ⟨2, 3, 4⟩], seq := 2 })))).locations
      = [⟨1, 10.5, -20.25⟩, ⟨2, 3, 4⟩] :=
  ⟨rfl, rfl, rfl,
    (C10_load_gives_all_rows (getLocation (grantedEnv ⟨10.5, -20.25⟩) freshSession) []
      { rows := [⟨1, 10.5, -20.25⟩, ⟨2, 3, 4⟩], seq := 2 } (some "true") false rfl).2.1⟩


/-- C6 (the code at the failing input): a session on a new database, one capture
whose INSERT succeeds while the SELECT of its reload fails (the list stays
empty, the table has one row), then a capture whose INSERT fails.
`saveLocation` gives its transaction no error callback and never rejects, so
`getLocation` goes on to `loadLocations`: the in-memory list after this failed
capture is not the list before it, although no record was added. -/
theorem C6_list_changes_after_failed_insert :
    (capture (grantedEnv ⟨1, 2⟩) [false, true] freshSession).pending = [] ∧
    (capture (grantedEnv ⟨1, 2⟩) [false, true] freshSession).locations = [] ∧
    captureEvents (grantedEnv ⟨3, 4⟩) [true, false]
        (capture (grantedEnv ⟨1, 2⟩) [false, true] freshSession)
      = [Event.permissionResolved "granted", Event.positionRequested,
          Event.positionResolved ⟨3, 4⟩, Event.saveLocationCalled ⟨3, 4⟩,
          Event.loadLocationsCalled, Event.insertExecuted ⟨3, 4⟩ false,
          Event.selectExecuted true] ∧
    (capture (grantedEnv ⟨3, 4⟩) [true, false]
        (capture (grantedEnv ⟨1, 2⟩) [false, true] freshSession)).db
      = (capture (grantedEnv ⟨1, 2⟩) [false, true] freshSession).db ∧
    (capture (grantedEnv ⟨3, 4⟩) [true, false]
        (capture (grantedEnv ⟨1, 2⟩) [false, true] freshSession)).locations
      = [{ id := 1, latitude := 1, longitude := 2 }] ∧
    (capture (grantedEnv ⟨3, 4⟩) [true, false]
        (capture (grantedEnv ⟨1, 2⟩) [false, true] freshSession)).locations
      ≠ (capture (grantedEnv ⟨1, 2⟩) [false, true] freshSession).locations :=
  ⟨rfl, rfl, rfl, rfl, rfl, by decide⟩

/-- What does hold of a capture started with no transaction in flight. If no
SELECT of the reload succeeds (the permission request or the position fetch
throws, permission is not granted, `saveLocation` or `loadLocations` throws,
or the SELECT fails) the in-memory list is exactly the list before. If a
SELECT succeeds the list is the stored table. If the INSERT fails the
database is unchanged. -/
theorem capture_list_by_outcome (w : World) (env : CaptureEnv) (faults : List Bool)
    (hq : w.pending = []) :
    (Event.selectExecuted true ∉ captureEvents env faults w →
      (capture env faults w).locations = w.locations) ∧
    (Event.selectExecuted true ∈ captureEvents env faults w →
      selectAll (capture env faults w).db
        = some (capture env faults w).locations) ∧
    ((∃ c, Event.insertExecuted c false ∈ captureEvents env faults w) →
      (capture env faults w).db = w.db) ∧
    ((∃ c, Event.insertExecuted c false ∈ captureEvents env faults w) →
      selectAll w.db = some w.locations →
      (capture env faults w).locations = w.locations) := by
  obtain ⟨p, q, s, l⟩ := env
  cases p with
  | none =>
    simp [captureEvents, capture, grantedEnv, flush, getLocation, getLocationTry, World.emit, hq, flushAux]
  | some status =>
    by_cases hs : status = "granted"
    · rcases faults with _ | ⟨f1, _ | ⟨f2, fs⟩⟩ <;> cases q <;> cases s <;> cases l <;>
        cases hdb : w.db <;> (try cases f1) <;> (try cases f2) <;>
        simp [captureEvents, capture, grantedEnv, flush, getLocation, getLocationTry, saveLocation, loadLocations,
          World.emit, hq, flushAux, execTxn, insertInto, selectAll, hdb, hs]
    · simp [captureEvents, capture, grantedEnv, flush, getLocation, getLocationTry, World.emit, hq, flushAux, hs]

/-! ## Interleaved calls: ordering -/

theorem getLocation_eq_segments (env : CaptureEnv) (w : World) :
    getLocation env w =
      match afterPermission env.permission (getLocationStart w) with
      | (w1, Pc.awaitPosition) =>
        match afterPosition env.position env.saveThrows w1 with
        | (w2, Pc.awaitSave rejected) =>
          match afterSave rejected env.loadThrows w2 with
          | (w3, Pc.awaitLoad rejected1) => afterLoad rejected1 w3
          | (w3, _) => w3
        | (w2, _) => w2
      | (w1, _) => w1 := by
  obtain ⟨p, q, s, l⟩ := env
  cases p with
  | none => simp [getLocation, getLocationTry, afterPermission, getLocationStart, getLocationCatch]
  | some status =>
    by_cases hs : status = "granted"
    · cases q <;> cases s <;> cases l <;>
        simp [getLocation, getLocationTry, afterPermission, afterPosition, afterSave, afterLoad,
          getLocationStart, getLocationCatch, saveLocation, loadLocations, World.emit, hs]
    · simp [getLocation, getLocationTry, afterPermission, getLocationStart, hs]

theorem stages_extend (T Q newT newQ : List Nat) (b b1 : Nat)
    (h1 : (T ++ Q).Pairwise (fun a b => a < b)) (h2 : ∀ x ∈ T ++ Q, x < b)
    (hQ : ∀ x ∈ Q, 3 ≤ x)
    (h3 : (newT ++ newQ).Pairwise (fun a b => a < b))
    (h4 : ∀ x ∈ newT ++ newQ, b ≤ x ∧ x < b1)
    (h6 : newT ≠ [] → b ≤ 3) (h7 : b ≤ b1) :
    ((T ++ newT) ++ (Q ++ newQ)).Pairwise (fun a b => a < b) ∧
      ∀ x ∈ (T ++ newT) ++ (Q ++ newQ), x < b1 := by
  have hQe : newT ≠ [] → Q = [] := by
    intro hn
    have hb := h6 hn
    cases Q with
    | nil => rfl
    | cons q qs =>
      have a1 := hQ q (by simp)
      have a2 := h2 q (by simp)
      omega
  by_cases hn : newT = []
  · subst hn
    simp only [List.append_nil, List.nil_append] at h3 h4 ⊢
    rw [← List.append_assoc]
    refine ⟨List.pairwise_append.mpr ⟨h1, h3, fun a ha x hx => ?_⟩, fun x hx => ?_⟩
    · have := h2 a ha; have := h4 x hx; omega
    · rcases List.mem_append.mp hx with hx | hx
      · have := h2 x hx; omega
      · exact (h4 x hx).2
  · have hq := hQe hn
    subst hq
    simp only [List.append_nil, List.nil_append] at h1 h2 ⊢
    rw [List.append_assoc]
    refine ⟨List.pairwise_append.mpr ⟨h1, h3, fun a ha x hx => ?_⟩, fun x hx => ?_⟩
    · have := h2 a ha; have := h4 x hx; omega
    · rcases List.mem_append.mp hx with hx | hx
      · have := h2 x hx; omega
      · exact (h4 x hx).2

theorem filter_owner {α : Type} (o : Option Nat) (k : Nat) (l : List α) :
    (l.map (fun e => (o, e))).filter (fun e => e.1 == some k)
      = if o = some k then l.map (fun e => (o, e)) else [] := by
  induction l with
  | nil => simp
  | cons a l ih =>
    by_cases h : o = some k <;> simp [List.filter_cons, h] at ih ⊢

theorem callStages_record (o : Option Nat) (s : Sys) (w : World) (k : Nat) :
    callStages (Sys.record o s w) k
      = callStages s k ++
          (if o = some k then (w.log.drop s.world.log.length).filterMap stage else []) := by
  simp only [callStages, Sys.record, List.filter_append, List.filterMap_append, filter_owner]
  by_cases h : o = some k
  · simp only [h, if_true, List.filterMap_map]
    rfl
  · simp [h]

theorem queuedStages_record (o : Option Nat) (s : Sys) (w : World) (k : Nat) :
    queuedStages (Sys.record o s w) k
      = queuedStages s k ++ (if o = some k then w.pending.filterMap txnStage else []) := by
  simp only [queuedStages, Sys.record, List.filter_append, List.filterMap_append, filter_owner]
  by_cases h : o = some k
  · simp only [h, if_true, List.filterMap_map]
    rfl
  · simp [h]

theorem queuedStages_ge (s : Sys) (k : Nat) : ∀ x ∈ queuedStages s k, 3 ≤ x := by
  intro x hx
  simp only [queuedStages, List.mem_filterMap] at hx
  obtain ⟨e, -, he⟩ := hx
  cases h : e.2 <;> simp [txnStage, h] at he <;> omega

theorem afterPermission_fits (o : Option String) (w : World) (hq : w.pending = []) :
    segmentFits w Pc.awaitPermission (afterPermission o w).1 (afterPermission o w).2 := by
  cases o with
  | none => simp [segmentFits, afterPermission, getLocationCatch, World.emit, stage, stageBound, hq]
  | some status =>
    by_cases hs : status = "granted" <;>
      simp [segmentFits, afterPermission, World.emit, stage, stageBound, hq, hs]

theorem afterPosition_fits (o : Option Coords) (t : Bool) (w : World) (hq : w.pending = []) :
    segmentFits w Pc.awaitPosition (afterPosition o t w).1 (afterPosition o t w).2 := by
  cases o <;> cases t <;>
    simp [segmentFits, afterPosition, getLocationCatch, saveLocation, World.emit, stage,
      txnStage, stageBound, hq]

theorem afterSave_fits (r t : Bool) (w : World) (hq : w.pending = []) :
    segmentFits w (Pc.awaitSave r) (afterSave r t w).1 (afterSave r t w).2 := by
  cases r <;> cases t <;>
    simp [segmentFits, afterSave, getLocationCatch, loadLocations, World.emit, stage,
      txnStage, stageBound, hq]

theorem afterLoad_fits (r : Bool) (w : World) (hq : w.pending = []) :
    segmentFits w (Pc.awaitLoad r) (afterLoad r w) Pc.done := by
  cases r <;>
    simp [segmentFits, afterLoad, getLocationCatch, World.emit, stage, stageBound, hq]

theorem execTxn_stages (f : Bool) (t : Txn) (w : World) :
    ((execTxn f t w).log.drop w.log.length).filterMap stage = (txnStage t).toList ∧
      (execTxn f t w).pending = w.pending := by
  cases t with
  | createTable => cases f <;> simp [execTxn, World.emit, stage, txnStage]
  | insert c =>
    cases f
    · cases h : insertInto w.db c.latitude c.longitude <;>
        simp [execTxn, World.emit, stage, txnStage, h]
    · simp [execTxn, World.emit, stage, txnStage]
  | select =>
    cases f
    · cases h : selectAll w.db <;> simp [execTxn, World.emit, stage, txnStage, h]
    · simp [execTxn, World.emit, stage, txnStage]

theorem Ordered_call_step (s : Sys) (h : s.Ordered) (j : Nat) (pc pc1 : Pc) (w : World)
    (hj : s.calls[j]? = some pc) (hfit : segmentFits s.world pc w pc1) :
    Sys.Ordered { Sys.record (some j) s w with calls := s.calls.set j pc1 } := by
  obtain ⟨h3, h4, h6, h7⟩ := hfit
  refine ⟨rfl, fun k => ?_⟩
  have hk := h.2 k
  have e1 : callStages { Sys.record (some j) s w with calls := s.calls.set j pc1 } k
      = callStages (Sys.record (some j) s w) k := rfl
  have e2 : queuedStages { Sys.record (some j) s w with calls := s.calls.set j pc1 } k
      = queuedStages (Sys.record (some j) s w) k := rfl
  rw [e1, e2, callStages_record, queuedStages_record]
  by_cases hkj : j = k
  · subst hkj
    have hlen : j < s.calls.length := by
      rcases List.getElem?_eq_some.mp hj with ⟨hl, -⟩
      exact hl
    have hset : (s.calls.set j pc1)[j]? = some pc1 := by
      simp [List.getElem?_set, hlen]
    simp only [if_true, hset]
    rw [hj] at hk
    exact stages_extend _ _ _ _ _ _ hk.1 hk.2 (queuedStages_ge s j) h3 h4 h6 h7
  · have hne : (some j = some k) = False := by simp [hkj]
    have hset : (s.calls.set j pc1)[k]? = s.calls[k]? := by
      simp [List.getElem?_set, hkj]
    simp only [hne, if_false, List.append_nil, hset]
    exact hk

theorem Ordered_press (s : Sys) (h : s.Ordered) : (s.step Action.press).Ordered := by
  refine ⟨rfl, fun k => ?_⟩
  have hk := h.2 k
  have e1 : callStages (s.step Action.press) k
      = callStages (Sys.record (some s.calls.length) s (getLocationStart s.world)) k := rfl
  have e2 : queuedStages (s.step Action.press) k
      = queuedStages (Sys.record (some s.calls.length) s (getLocationStart s.world)) k := rfl
  have e3 : (s.step Action.press).calls = s.calls ++ [Pc.awaitPermission] := rfl
  have hb : stageBound (s.calls ++ [Pc.awaitPermission])[k]? = stageBound s.calls[k]? := by
    rcases Nat.lt_trichotomy k s.calls.length with hlt | heq | hgt
    · rw [List.getElem?_append_left hlt]
    · subst heq; simp [stageBound]
    · have h1 : s.calls[k]? = none := List.getElem?_eq_none (by omega)
      have h2 : (s.calls ++ [Pc.awaitPermission])[k]? = none :=
        List.getElem?_eq_none (by simp; omega)
      rw [h1, h2]
  rw [e1, e2, e3, hb, callStages_record, queuedStages_record]
  have hlog : (getLocationStart s.world).log = s.world.log := rfl
  have hpend : (getLocationStart s.world).pending = [] := h.1
  simp only [hlog, hpend, List.drop_length, List.filterMap_nil, ite_self, List.append_nil]
  exact hk

theorem Ordered_transaction (s : Sys) (h : s.Ordered) (f : Bool) :
    (s.step (Action.transaction f)).Ordered := by
  cases hq : s.queue with
  | nil => simpa [Sys.step, hq] using h
  | cons e rest =>
    obtain ⟨o, t⟩ := e
    have hs : s.step (Action.transaction f)
        = Sys.record o { s with queue := rest } (execTxn f t s.world) := by
      simp [Sys.step, hq]
    rw [hs]
    refine ⟨rfl, fun k => ?_⟩
    have hk := h.2 k
    obtain ⟨x1, x2⟩ := execTxn_stages f t s.world
    rw [callStages_record, queuedStages_record]
    have c1 : callStages { s with queue := rest } k = callStages s k := rfl
    have c2 : queuedStages s k
        = (if o = some k then (txnStage t).toList else []) ++ queuedStages { s with queue := rest } k := by
      simp only [queuedStages, hq, List.filter_cons]
      by_cases ho : o = some k
      · cases ht : txnStage t <;> simp [ho, ht]
      · simp [ho]
    have c3 : (Sys.record o { s with queue := rest } (execTxn f t s.world)).calls = s.calls := rfl
    have c4 : ({ s with queue := rest } : Sys).world = s.world := rfl
    rw [c1, c3, c4, x1, x2, h.1]
    rw [c2] at hk
    by_cases ho : o = some k
    · simp only [ho, if_true, List.filterMap_nil, List.append_nil] at hk ⊢
      simpa [List.append_assoc] using hk
    · simp only [ho, if_false, List.append_nil, List.nil_append] at hk ⊢
      exact hk

theorem Ordered_step (s : Sys) (a : Action) (h : s.Ordered) : (s.step a).Ordered := by
  cases a with
  | press => exact Ordered_press s h
  | transaction f => exact Ordered_transaction s h f
  | permission k o =>
    cases hc : s.calls[k]? with
    | none => simpa [Sys.step, hc] using h
    | some pc =>
      cases pc <;> try (simpa [Sys.step, hc] using h)
      have := Ordered_call_step s h k _ _ _ hc (afterPermission_fits o s.world h.1)
      simpa [Sys.step, hc] using this
  | position k o t =>
    cases hc : s.calls[k]? with
    | none => simpa [Sys.step, hc] using h
    | some pc =>
      cases pc <;> try (simpa [Sys.step, hc] using h)
      have := Ordered_call_step s h k _ _ _ hc (afterPosition_fits o t s.world h.1)
      simpa [Sys.step, hc] using this
  | resume k t =>
    cases hc : s.calls[k]? with
    | none => simpa [Sys.step, hc] using h
    | some pc =>
      cases pc with
      | awaitSave r =>
        have := Ordered_call_step s h k _ _ _ hc (afterSave_fits r t s.world h.1)
        simpa [Sys.step, hc] using this
      | awaitLoad r =>
        have := Ordered_call_step s h k _ _ _ hc (afterLoad_fits r s.world h.1)
        simpa [Sys.step, hc] using this
      | awaitPermission => simpa [Sys.step, hc] using h
      | awaitPosition => simpa [Sys.step, hc] using h
      | done => simpa [Sys.step, hc] using h

theorem Ordered_run (acts : List Action) (s : Sys) (h : s.Ordered) : (s.run acts).Ordered := by
  induction acts generalizing s with
  | nil => exact h
  | cons a acts ih => exact ih (s.step a) (Ordered_step s a h)

theorem Ordered_boot (g : Bool) (darkMode : Option String) (db : Database) :
    (boot g darkMode db).Ordered := by
  refine ⟨rfl, fun k => ?_⟩
  rw [boot, callStages_record, queuedStages_record]
  simp [callStages, queuedStages]

/-- C9: in every execution of a session (any device state at start, any
schedule of button presses, answers of the platform, resumptions and runs of
queued transactions, with any outcomes and faults, calls of `getLocation`
overlapping at will) and for every call of `getLocation`, the steps of that
call that take place do so in the order permission resolved, position
requested, position resolved, INSERT run, SELECT run, each at most once. In
the schedule on a new device where two calls overlap step by step and both
are granted, each of the two goes through all five steps, in that order. -/
theorem C9_capture_order (getItemFails : Bool) (darkMode : Option String) (db : Database)
    (acts : List Action) (k : Nat) :
    (callStages ((boot getItemFails darkMode db).run acts) k).Pairwise (fun a b => a < b) ∧
    callStages ((boot false none none).run
        [Action.press, Action.press, Action.permission 0 (some "granted"),
          Action.permission 1 (some "granted"), Action.position 0 (some ⟨10.5, -20.25⟩) false,
          Action.position 1 (some ⟨3, 4⟩) false, Action.resume 0 false, Action.resume 1 false,
          Action.transaction false, Action.transaction false, Action.transaction false,
          Action.transaction false, Action.transaction false, Action.transaction false,
          Action.resume 0 false, Action.resume 1 false]) 0 = [0, 1, 2, 3, 4] ∧
    callStages ((boot false none none).run
        [Action.press, Action.press, Action.permission 0 (some "granted"),
          Action.permission 1 (some "granted"), Action.position 0 (some ⟨10.5, -20.25⟩) false,
          Action.position 1 (some ⟨3, 4⟩) false, Action.resume 0 false, Action.resume 1 false,
          Action.transaction false, Action.transaction false, Action.transaction false,
          Action.transaction false, Action.transaction false, Action.transaction false,
          Action.resume 0 false, Action.resume 1 false]) 1 = [0, 1, 2, 3, 4] := by
  refine ⟨?_, rfl, rfl⟩
  have h := (Ordered_run acts _ (Ordered_boot getItemFails darkMode db)).2 k
  exact (List.pairwise_append.mp h.1).1

end ReactLocation
